import Mathlib

/-!
Verification of the compositing and dimension-fitting pipeline of the
AI Logo Placer page (src/src/app/page.tsx and src/unnamed/part_000).

Numbers are modelled as exact rationals extended with the JavaScript
special values Infinity, -Infinity and NaN (type `JsNum`); rounding of
IEEE doubles is not modelled (no claim here depends on it), and neither
is the signed zero.  Purely finite computations (letterboxing, overlay
placement) are modelled directly over `ℚ`.
-/

/-- JavaScript number semantics restricted to the operations the page
uses: exact rational value, the two infinities produced by division by
zero, and NaN. -/
inductive JsNum where
  | fin (q : ℚ)
  | posInf
  | negInf
  | nan
deriving DecidableEq

/-- JavaScript division `a / b` on `JsNum` (signed zero not modelled:
division of a positive number by zero yields Infinity). -/
def JsNum.div : JsNum → JsNum → JsNum
  | nan, _ => nan
  | _, nan => nan
  | fin a, fin b =>
      if b = 0 then (if a = 0 then nan else if 0 < a then posInf else negInf)
      else fin (a / b)
  | fin _, posInf => fin 0
  | fin _, negInf => fin 0
  | posInf, fin b => if 0 ≤ b then posInf else negInf
  | negInf, fin b => if 0 ≤ b then negInf else posInf
  | posInf, posInf => nan
  | posInf, negInf => nan
  | negInf, posInf => nan
  | negInf, negInf => nan

/-- JavaScript subtraction `a - b` on `JsNum`. -/
def JsNum.sub : JsNum → JsNum → JsNum
  | nan, _ => nan
  | _, nan => nan
  | fin a, fin b => fin (a - b)
  | fin _, posInf => negInf
  | fin _, negInf => posInf
  | posInf, fin _ => posInf
  | negInf, fin _ => negInf
  | posInf, posInf => nan
  | posInf, negInf => posInf
  | negInf, posInf => negInf
  | negInf, negInf => nan

/-- JavaScript `Math.abs` on `JsNum`. -/
def JsNum.abs : JsNum → JsNum
  | fin a => fin |a|
  | posInf => posInf
  | negInf => posInf
  | nan => nan

/-- JavaScript strict comparison `a < b` on `JsNum`; any comparison
involving NaN is false. -/
def JsNum.lt : JsNum → JsNum → Bool
  | nan, _ => false
  | _, nan => false
  | fin a, fin b => decide (a < b)
  | fin _, posInf => true
  | fin _, negInf => false
  | posInf, _ => false
  | negInf, negInf => false
  | negInf, _ => true

/-- True exactly when the value is NaN or one of the infinities. -/
def JsNum.isNanOrInf : JsNum → Bool
  | fin _ => false
  | _ => true

/-- The fixed table of SDXL resolutions, src/src/app/page.tsx lines 19-22
(identical in src/unnamed/part_000 lines 19-22). -/
def ALLOWED_DIMENSIONS : List (ℚ × ℚ) :=
  [(1024, 1024), (1152, 896), (1216, 832), (1344, 768),
   (1536, 640), (640, 1536), (768, 1344), (832, 1216), (896, 1152)]

/-- One iteration of the `ALLOWED_DIMENSIONS.forEach` loop of
`findClosestAllowedSize` (src/src/app/page.tsx lines 111-117): the
accumulator carries the mutable `bestMatch` and `minDiff` variables. -/
def closestStep (rho : JsNum) (acc : (ℚ × ℚ) × JsNum) (dim : ℚ × ℚ) : (ℚ × ℚ) × JsNum :=
  let diff := JsNum.abs (JsNum.sub rho (JsNum.div (JsNum.fin dim.1) (JsNum.fin dim.2)))
  if JsNum.lt diff acc.2 then (dim, diff) else acc

/-- The loop of `findClosestAllowedSize` as a function of the already
computed aspect ratio: `bestMatch` starts at `ALLOWED_DIMENSIONS[0]` and
`minDiff` at `Infinity` (src/src/app/page.tsx lines 108-118). -/
def selectClosest (rho : JsNum) : ℚ × ℚ :=
  (ALLOWED_DIMENSIONS.foldl (closestStep rho) (ALLOWED_DIMENSIONS.headI, JsNum.posInf)).1

/-- `findClosestAllowedSize`, src/src/app/page.tsx lines 106-119. -/
def findClosestAllowedSize (width height : JsNum) : ℚ × ℚ :=
  selectClosest (JsNum.div width height)

/-- The quantity minimized by `findClosestAllowedSize`: the absolute
difference between the input aspect ratio and a table entry's ratio. -/
def ratioDiff (rho : ℚ) (dim : ℚ × ℚ) : ℚ :=
  |rho - dim.1 / dim.2|

/-- Result of letterboxing an image into a target canvas,
src/src/app/page.tsx lines 174-178: uniform scale, drawn size and
centering offsets. -/
structure LetterboxResult where
  scale : ℚ
  drawnWidth : ℚ
  drawnHeight : ℚ
  offsetX : ℚ
  offsetY : ℚ
deriving DecidableEq

/-- The letterbox computation of `handleGenerate`, src/src/app/page.tsx
lines 174-178: `ratio = Math.min(targetWidth / productImage.width,
targetHeight / productImage.height)`, drawn size `image * ratio`,
offsets centering the drawn image. -/
def letterbox (imageW imageH targetW targetH : ℚ) : LetterboxResult :=
  let ratio := min (targetW / imageW) (targetH / imageH)
  let newWidth := imageW * ratio
  let newHeight := imageH * ratio
  { scale := ratio
    drawnWidth := newWidth
    drawnHeight := newHeight
    offsetX := (targetW - newWidth) / 2
    offsetY := (targetH - newHeight) / 2 }

/-- An axis-aligned rectangle as passed to `ctx.drawImage`. -/
structure OverlayRect where
  x : ℚ
  y : ℚ
  width : ℚ
  height : ℚ
deriving DecidableEq

/-- The live-preview overlay computation, src/src/app/page.tsx lines
98-102: width from the canvas width and the size slider, height
preserving the logo aspect ratio, position centering the logo on the
anchor percentages. -/
def previewOverlay (canvasW canvasH logoW logoH sizePercent posX posY : ℚ) : OverlayRect :=
  let logoWidth := canvasW * (sizePercent / 100)
  let logoHeight := logoH * (logoWidth / logoW)
  { x := canvasW * (posX / 100) - logoWidth / 2
    y := canvasH * (posY / 100) - logoHeight / 2
    width := logoWidth
    height := logoHeight }

/-- The submission-path overlay computation, src/src/app/page.tsx lines
181-184: width from the letterboxed drawn width, position relative to
the drawn product-image region (offsets plus percentages of the drawn
size), centered on the anchor. -/
def submissionOverlay (lb : LetterboxResult) (logoW logoH sizePercent posX posY : ℚ) :
    OverlayRect :=
  let logoWidth := lb.drawnWidth * (sizePercent / 100)
  let logoHeight := logoH * (logoWidth / logoW)
  { x := lb.offsetX + lb.drawnWidth * (posX / 100) - logoWidth / 2
    y := lb.offsetY + lb.drawnHeight * (posY / 100) - logoHeight / 2
    width := logoWidth
    height := logoHeight }

/-- Which image a draw call refers to. -/
inductive ImageRef where
  | product
  | logo
deriving DecidableEq

/-- A canvas draw command issued by `handleGenerate`. -/
inductive DrawOp where
  | fillRect (x y w h : ℚ) (color : String)
  | drawImage (img : ImageRef) (x y w h : ℚ)
deriving DecidableEq

/-- The sequence of canvas operations of the submission path,
src/src/app/page.tsx lines 172-185: fill the whole target canvas with
the background color, draw the letterboxed product image centered, then
draw the logo at its scaled position. -/
def submissionDrawOps (imageW imageH logoW logoH sizePercent posX posY targetW targetH : ℚ) :
    List DrawOp :=
  let lb := letterbox imageW imageH targetW targetH
  let ov := submissionOverlay lb logoW logoH sizePercent posX posY
  [DrawOp.fillRect 0 0 targetW targetH ("#000000"),
   DrawOp.drawImage ImageRef.product lb.offsetX lb.offsetY lb.drawnWidth lb.drawnHeight,
   DrawOp.drawImage ImageRef.logo ov.x ov.y ov.width ov.height]

/-- The React state of the page that `handleGenerate` reads and writes
(src/src/app/page.tsx lines 48-57); images are recorded by their
dimensions, `none` when not uploaded. -/
structure PageState where
  productImage : Option (ℚ × ℚ)
  logoImage : Option (ℚ × ℚ)
  generatedImage : String
  isLoading : Bool
  loadingStatus : String
  error : String
deriving DecidableEq

/-- A network request issued by `handleGenerate`. -/
inductive NetRequest where
  | eraseBackground
  | imageToImage
deriving DecidableEq

/-- The synchronous prefix of `handleGenerate` (src/src/app/page.tsx
lines 121-147), up to its first network request: the missing-input
guard, the loading/error state updates, the API-key check (the key's
presence is the `hasApiKey` parameter), and the choice of first request
(background removal when enabled, otherwise image-to-image); canvas
operations are assumed to succeed.  Returns the updated state and the
list of requests issued so far. -/
def handleGenerateStart (removeLogoBg hasApiKey : Bool) (s : PageState) :
    PageState × List NetRequest :=
  if s.productImage = none ∨ s.logoImage = none then
    ({ s with error := "Please upload both a product image and a logo." }, [])
  else
    let s1 := { s with isLoading := true, generatedImage := "", error := "" }
    if hasApiKey then
      if removeLogoBg then
        ({ s1 with loadingStatus := "Removing logo background..." },
         [NetRequest.eraseBackground])
      else
        ({ s1 with loadingStatus := "Integrating logo..." },
         [NetRequest.imageToImage])
    else
      ({ s1 with isLoading := false, loadingStatus := "",
                 error := "Stability AI API key not configured." }, [])

/-- Modelled from the spec: the server-side proxy route is not present
under src/ (only spec sections 6 and 7 describe it).  A proxy request
carries optional multipart fields `image`, `mask` and `prompt`. -/
structure ProxyForm where
  image : Option String
  mask : Option String
  prompt : Option String
deriving DecidableEq

/-- Modelled from the spec: the server-side credentials a proxy
invocation may or may not have configured. -/
structure ProxyEnv where
  accountId : Option String
  apiToken : Option String
deriving DecidableEq

/-- Modelled from the spec: the outcome of the upstream inpainting call
made by the proxy. -/
inductive UpstreamResult where
  | ok (png : String)
  | failed (status : ℕ) (body : String)
deriving DecidableEq

/-- Modelled from the spec: a proxy response, either binary PNG or a
JSON body carrying an `error` string with an HTTP status. -/
inductive ProxyResponse where
  | png (bytes : String)
  | jsonError (status : ℕ) (message : String)
deriving DecidableEq

/-- Modelled from the spec: the proxy route handler (spec section 6),
absent from src/.  It returns status 400 with error message
"Missing required fields from client" when the `image` or `mask`
multipart field is missing, 500 when a server credential is missing,
the upstream status and body on upstream failure, and the binary PNG
on success. -/
def proxyPOST (env : ProxyEnv) (form : ProxyForm) (upstream : UpstreamResult) :
    ProxyResponse :=
  if form.image = none ∨ form.mask = none then
    ProxyResponse.jsonError 400 ("Missing required fields from client")
  else if env.accountId = none ∨ env.apiToken = none then
    ProxyResponse.jsonError 500 ("Server configuration error")
  else
    match upstream with
    | UpstreamResult.ok png => ProxyResponse.png png
    | UpstreamResult.failed status body => ProxyResponse.jsonError status body

/-- Claim C2 counterexample: on input 2000×1000 (aspect ratio 2.0),
`findClosestAllowedSize` does NOT return 1536×640 as the claim states;
the entry 1344×768 has the strictly smaller ratio difference
(0.25 versus 0.4). -/
theorem findClosest_2000_1000_ne_1536_640 :
    ¬ (findClosestAllowedSize (JsNum.fin 2000) (JsNum.fin 1000) = (1536, 640)) := by
  norm_num [findClosestAllowedSize, selectClosest, closestStep, ALLOWED_DIMENSIONS,
    JsNum.div, JsNum.sub, JsNum.abs, JsNum.lt, List.foldl, abs_of_nonneg, abs_of_nonpos]

/-- Claim C2 (amended): on input 2000×1000 (aspect ratio 2.0),
`findClosestAllowedSize` selects 1344×768 (ratio 1.75, difference 0.25)
rather than 1536×640 (ratio 2.4, difference 0.4), by exact comparison of
absolute ratio differences. -/
theorem findClosest_2000_1000_eq_1344_768 :
    findClosestAllowedSize (JsNum.fin 2000) (JsNum.fin 1000) = (1344, 768) ∧
    |(2000 : ℚ) / 1000 - 1344 / 768| < |(2000 : ℚ) / 1000 - 1536 / 640| := by
  constructor
  · norm_num [findClosestAllowedSize, selectClosest, closestStep, ALLOWED_DIMENSIONS,
      JsNum.div, JsNum.sub, JsNum.abs, JsNum.lt, List.foldl, abs_of_nonneg, abs_of_nonpos]
  · rw [abs_of_nonneg (by norm_num), abs_of_nonpos (by norm_num)]
    norm_num

/-- Claim C3: letterboxing uses the uniform scale
`min (targetW / imageW) (targetH / imageH)`; for positive image
dimensions the drawn size never exceeds the target, the offsets center
the drawn image, and the submission draw sequence fills the canvas with
the background color before drawing the centered product image. -/
theorem letterbox_fits_and_centers (iw ih tw th lw lh s x y : ℚ)
    (hiw : 0 < iw) (hih : 0 < ih) :
    (letterbox iw ih tw th).scale = min (tw / iw) (th / ih) ∧
    (letterbox iw ih tw th).drawnWidth = iw * (letterbox iw ih tw th).scale ∧
    (letterbox iw ih tw th).drawnHeight = ih * (letterbox iw ih tw th).scale ∧
    (letterbox iw ih tw th).drawnWidth ≤ tw ∧
    (letterbox iw ih tw th).drawnHeight ≤ th ∧
    (letterbox iw ih tw th).offsetX = (tw - (letterbox iw ih tw th).drawnWidth) / 2 ∧
    (letterbox iw ih tw th).offsetY = (th - (letterbox iw ih tw th).drawnHeight) / 2 ∧
    (∃ rest, submissionDrawOps iw ih lw lh s x y tw th =
      DrawOp.fillRect 0 0 tw th ("#000000") ::
        DrawOp.drawImage ImageRef.product (letterbox iw ih tw th).offsetX
          (letterbox iw ih tw th).offsetY (letterbox iw ih tw th).drawnWidth
          (letterbox iw ih tw th).drawnHeight :: rest) := by
  have hbw : iw * min (tw / iw) (th / ih) ≤ tw := by
    calc iw * min (tw / iw) (th / ih) ≤ iw * (tw / iw) :=
          mul_le_mul_of_nonneg_left (min_le_left _ _) hiw.le
      _ = tw := by field_simp
  have hbh : ih * min (tw / iw) (th / ih) ≤ th := by
    calc ih * min (tw / iw) (th / ih) ≤ ih * (th / ih) :=
          mul_le_mul_of_nonneg_left (min_le_right _ _) hih.le
      _ = th := by field_simp
  exact ⟨rfl, rfl, rfl, hbw, hbh, rfl, rfl, ⟨_, rfl⟩⟩

/-- Claim C3 witness: instantiation at a 2000×1000 image letterboxed
into the 1344×768 target. -/
theorem letterbox_fits_and_centers_witness :
    (letterbox 2000 1000 1344 768).scale = min ((1344 : ℚ) / 2000) ((768 : ℚ) / 1000) ∧
    (letterbox 2000 1000 1344 768).drawnWidth =
      2000 * (letterbox 2000 1000 1344 768).scale ∧
    (letterbox 2000 1000 1344 768).drawnHeight =
      1000 * (letterbox 2000 1000 1344 768).scale ∧
    (letterbox 2000 1000 1344 768).drawnWidth ≤ 1344 ∧
    (letterbox 2000 1000 1344 768).drawnHeight ≤ 768 ∧
    (letterbox 2000 1000 1344 768).offsetX =
      (1344 - (letterbox 2000 1000 1344 768).drawnWidth) / 2 ∧
    (letterbox 2000 1000 1344 768).offsetY =
      (768 - (letterbox 2000 1000 1344 768).drawnHeight) / 2 ∧
    (∃ rest, submissionDrawOps 2000 1000 200 100 15 75 80 1344 768 =
      DrawOp.fillRect 0 0 1344 768 ("#000000") ::
        DrawOp.drawImage ImageRef.product (letterbox 2000 1000 1344 768).offsetX
          (letterbox 2000 1000 1344 768).offsetY
          (letterbox 2000 1000 1344 768).drawnWidth
          (letterbox 2000 1000 1344 768).drawnHeight :: rest) :=
  letterbox_fits_and_centers 2000 1000 1344 768 200 100 15 75 80
    (by norm_num) (by norm_num)

/-- Claim C4 counterexample: in the letterboxed submission draw of a
2000×1000 product image into the 1344×768 canvas with anchor (75, 80)
and size 15, the overlay's vertical center is 585.6, not the
canvas-relative value 768·80/100 = 614.4; so the claimed canvas-relative
center property fails for the submission draw. -/
theorem submission_center_not_canvas_relative :
    ¬ ((submissionOverlay (letterbox 2000 1000 1344 768) 200 100 15 75 80).y +
        (submissionOverlay (letterbox 2000 1000 1344 768) 200 100 15 75 80).height / 2 =
        768 * (80 / 100)) := by
  norm_num [submissionOverlay, letterbox, min_def]

/-- Claim C4 (amended): the overlay's computed center equals
`(canvasW·x/100, canvasH·y/100)` exactly in the live-preview draw; in
the letterboxed submission draw the center instead equals
`(offsetX + drawnWidth·x/100, offsetY + drawnHeight·y/100)`, i.e. it is
relative to the drawn product-image region, not the full canvas. -/
theorem overlay_center_characterized (cw ch lw lh s x y iw ih tw th : ℚ) :
    ((previewOverlay cw ch lw lh s x y).x + (previewOverlay cw ch lw lh s x y).width / 2 =
        cw * (x / 100) ∧
      (previewOverlay cw ch lw lh s x y).y + (previewOverlay cw ch lw lh s x y).height / 2 =
        ch * (y / 100)) ∧
    ((submissionOverlay (letterbox iw ih tw th) lw lh s x y).x +
        (submissionOverlay (letterbox iw ih tw th) lw lh s x y).width / 2 =
        (letterbox iw ih tw th).offsetX + (letterbox iw ih tw th).drawnWidth * (x / 100) ∧
      (submissionOverlay (letterbox iw ih tw th) lw lh s x y).y +
        (submissionOverlay (letterbox iw ih tw th) lw lh s x y).height / 2 =
        (letterbox iw ih tw th).offsetY + (letterbox iw ih tw th).drawnHeight * (y / 100)) := by
  refine ⟨⟨?_, ?_⟩, ?_, ?_⟩ <;> simp only [previewOverlay, submissionOverlay, letterbox] <;> ring

/-- Claim C6: the preview overlay width equals
`canvasW · sizePercent / 100`, and the computed overlay keeps the source
overlay's width/height ratio. -/
theorem overlay_width_linear_aspect (cw ch lw lh s x y : ℚ)
    (hs0 : 1 ≤ s) (hs1 : s ≤ 100) (hcw : 0 < cw) (hlw : 0 < lw) (hlh : 0 < lh) :
    (previewOverlay cw ch lw lh s x y).width = cw * (s / 100) ∧
    (previewOverlay cw ch lw lh s x y).width / (previewOverlay cw ch lw lh s x y).height =
      lw / lh := by
  have hsp : (0 : ℚ) < s := lt_of_lt_of_le one_pos hs0
  have hW : cw * (s / 100) ≠ 0 := by positivity
  have h1 : lw ≠ 0 := hlw.ne'
  have h2 : lh ≠ 0 := hlh.ne'
  have h3 : cw ≠ 0 := hcw.ne'
  have h4 : s ≠ 0 := hsp.ne'
  refine ⟨rfl, ?_⟩
  simp only [previewOverlay]
  field_simp
  ring

/-- Claim C7: with sizePercent 15 and anchor (75, 80) on a 1000×1000
canvas and a 200×100 overlay, the compositor computes overlay width 150,
height 75 and top-left corner (675, 762.5). -/
theorem preview_overlay_example :
    previewOverlay 1000 1000 200 100 15 75 80 =
      { x := 675, y := 762.5, width := 150, height := 75 } := by
  norm_num [previewOverlay, OverlayRect.mk.injEq]

/-- Claim C8: when the product image or the logo image is absent,
`handleGenerate` sets the inline error message and returns immediately:
no network request is issued, and the loading, loading-status and
generated-image states are unchanged. -/
theorem handleGenerate_missing_input (removeLogoBg hasApiKey : Bool) (s : PageState)
    (h : s.productImage = none ∨ s.logoImage = none) :
    handleGenerateStart removeLogoBg hasApiKey s =
      ({ s with error := "Please upload both a product image and a logo." }, []) := by
  unfold handleGenerateStart
  rw [if_pos h]

/-- Claim C8 witness: a state with no product image uploaded. -/
theorem handleGenerate_missing_input_witness :
    handleGenerateStart true true
        { productImage := none, logoImage := some (200, 100), generatedImage := "",
          isLoading := false, loadingStatus := "", error := "" } =
      ({ productImage := none, logoImage := some (200, 100), generatedImage := "",
         isLoading := false, loadingStatus := "",
         error := "Please upload both a product image and a logo." }, []) :=
  handleGenerate_missing_input true true _ (Or.inl rfl)

/-- Claim C9: a proxy request missing the `image` or the `mask`
multipart field is answered with HTTP status 400 and the error body
"Missing required fields from client". -/
theorem proxyPOST_missing_fields (env : ProxyEnv) (form : ProxyForm) (u : UpstreamResult)
    (h : form.image = none ∨ form.mask = none) :
    proxyPOST env form u =
      ProxyResponse.jsonError 400 ("Missing required fields from client") := by
  unfold proxyPOST
  rw [if_pos h]

/-- Claim C9 witness: a request carrying a mask and a prompt but no
image. -/
theorem proxyPOST_missing_fields_witness :
    proxyPOST { accountId := some ("acct"), apiToken := some ("tok") }
        { image := none, mask := some ("m"), prompt := some ("p") }
        (UpstreamResult.ok ("png")) =
      ProxyResponse.jsonError 400 ("Missing required fields from client") :=
  proxyPOST_missing_fields _ _ _ (Or.inl rfl)

/-- Claim C6 witness: a 1000-wide canvas, a 200×100 logo and size 15. -/
theorem overlay_width_linear_aspect_witness :
    (previewOverlay 1000 1000 200 100 15 75 80).width = 1000 * (15 / 100) ∧
    (previewOverlay 1000 1000 200 100 15 75 80).width /
        (previewOverlay 1000 1000 200 100 15 75 80).height = 200 / 100 :=
  overlay_width_linear_aspect 1000 1000 200 100 15 75 80
    (by norm_num) (by norm_num) (by norm_num) (by norm_num) (by norm_num)

/-- Claim C5: in the letterboxed submission path the anchor percentages
are interpreted relative to the drawn product-image region: the logo
width is scaled from the drawn width, the logo center equals
`(offsetX + drawnWidth·x/100, offsetY + drawnHeight·y/100)`, and for
anchors in [0,100] that center lies within the drawn rectangle. -/
theorem submission_anchor_drawn_region (iw ih tw th lw lh s x y : ℚ)
    (hiw : 0 < iw) (hih : 0 < ih) (htw : 0 < tw) (hth : 0 < th)
    (hx0 : 0 ≤ x) (hx1 : x ≤ 100) (hy0 : 0 ≤ y) (hy1 : y ≤ 100) :
    (submissionOverlay (letterbox iw ih tw th) lw lh s x y).width =
      (letterbox iw ih tw th).drawnWidth * (s / 100) ∧
    (submissionOverlay (letterbox iw ih tw th) lw lh s x y).x +
        (submissionOverlay (letterbox iw ih tw th) lw lh s x y).width / 2 =
      (letterbox iw ih tw th).offsetX + (letterbox iw ih tw th).drawnWidth * (x / 100) ∧
    (submissionOverlay (letterbox iw ih tw th) lw lh s x y).y +
        (submissionOverlay (letterbox iw ih tw th) lw lh s x y).height / 2 =
      (letterbox iw ih tw th).offsetY + (letterbox iw ih tw th).drawnHeight * (y / 100) ∧
    (letterbox iw ih tw th).offsetX ≤
      (submissionOverlay (letterbox iw ih tw th) lw lh s x y).x +
        (submissionOverlay (letterbox iw ih tw th) lw lh s x y).width / 2 ∧
    (submissionOverlay (letterbox iw ih tw th) lw lh s x y).x +
        (submissionOverlay (letterbox iw ih tw th) lw lh s x y).width / 2 ≤
      (letterbox iw ih tw th).offsetX + (letterbox iw ih tw th).drawnWidth ∧
    (letterbox iw ih tw th).offsetY ≤
      (submissionOverlay (letterbox iw ih tw th) lw lh s x y).y +
        (submissionOverlay (letterbox iw ih tw th) lw lh s x y).height / 2 ∧
    (submissionOverlay (letterbox iw ih tw th) lw lh s x y).y +
        (submissionOverlay (letterbox iw ih tw th) lw lh s x y).height / 2 ≤
      (letterbox iw ih tw th).offsetY + (letterbox iw ih tw th).drawnHeight := by
  have hmin : 0 ≤ min (tw / iw) (th / ih) :=
    le_min (div_nonneg htw.le hiw.le) (div_nonneg hth.le hih.le)
  have hdw : 0 ≤ iw * min (tw / iw) (th / ih) := mul_nonneg hiw.le hmin
  have hdh : 0 ≤ ih * min (tw / iw) (th / ih) := mul_nonneg hih.le hmin
  have hx100 : 0 ≤ x / 100 := by positivity
  have hy100 : 0 ≤ y / 100 := by positivity
  have hx100' : x / 100 ≤ 1 := (div_le_one (by norm_num)).mpr hx1
  have hy100' : y / 100 ≤ 1 := (div_le_one (by norm_num)).mpr hy1
  have hbx0 : 0 ≤ iw * min (tw / iw) (th / ih) * (x / 100) := mul_nonneg hdw hx100
  have hby0 : 0 ≤ ih * min (tw / iw) (th / ih) * (y / 100) := mul_nonneg hdh hy100
  have hbx1 : iw * min (tw / iw) (th / ih) * (x / 100) ≤ iw * min (tw / iw) (th / ih) :=
    mul_le_of_le_one_right hdw hx100'
  have hby1 : ih * min (tw / iw) (th / ih) * (y / 100) ≤ ih * min (tw / iw) (th / ih) :=
    mul_le_of_le_one_right hdh hy100'
  simp only [submissionOverlay, letterbox]
  refine ⟨trivial, by ring, by ring, by linarith, by linarith, by linarith, by linarith⟩

/-- Claim C5 witness: the 2000×1000 product image letterboxed into
1344×768 with the default anchor (75, 80). -/
theorem submission_anchor_drawn_region_witness :
    (letterbox 2000 1000 1344 768).offsetY ≤
      (submissionOverlay (letterbox 2000 1000 1344 768) 200 100 15 75 80).y +
        (submissionOverlay (letterbox 2000 1000 1344 768) 200 100 15 75 80).height / 2 ∧
    (submissionOverlay (letterbox 2000 1000 1344 768) 200 100 15 75 80).y +
        (submissionOverlay (letterbox 2000 1000 1344 768) 200 100 15 75 80).height / 2 ≤
      (letterbox 2000 1000 1344 768).offsetY + (letterbox 2000 1000 1344 768).drawnHeight :=
  ⟨(submission_anchor_drawn_region 2000 1000 1344 768 200 100 15 75 80
      (by norm_num) (by norm_num) (by norm_num) (by norm_num)
      (by norm_num) (by norm_num) (by norm_num) (by norm_num)).2.2.2.2.2.1,
   (submission_anchor_drawn_region 2000 1000 1344 768 200 100 15 75 80
      (by norm_num) (by norm_num) (by norm_num) (by norm_num)
      (by norm_num) (by norm_num) (by norm_num) (by norm_num)).2.2.2.2.2.2⟩

/-- Evaluation of one loop iteration when the running minimum is finite
and the table entry has nonzero height: the JsNum comparison reduces to
a rational comparison of ratio differences. -/
theorem closestStep_fin_fin (rho m : ℚ) (b z : ℚ × ℚ) (hz : z.2 ≠ 0) :
    closestStep (JsNum.fin rho) (b, JsNum.fin m) z =
      if ratioDiff rho z < m then (z, JsNum.fin (ratioDiff rho z))
      else (b, JsNum.fin m) := by
  simp [closestStep, JsNum.div, hz, JsNum.sub, JsNum.abs, JsNum.lt, ratioDiff]

/-- Evaluation of one loop iteration against the initial `minDiff =
Infinity`: any finite difference wins, so the entry is always taken. -/
theorem closestStep_posInf (rho : ℚ) (b z : ℚ × ℚ) (hz : z.2 ≠ 0) :
    closestStep (JsNum.fin rho) (b, JsNum.posInf) z =
      (z, JsNum.fin (ratioDiff rho z)) := by
  simp [closestStep, JsNum.div, hz, JsNum.sub, JsNum.abs, JsNum.lt, ratioDiff]

/-- Invariant of the `findClosestAllowedSize` loop over any suffix of the
table, starting from a finite running minimum: either no entry beats the
minimum and the accumulator is unchanged, or the result is the first
entry attaining the least difference (strictly below the incoming
minimum, weakly below every entry, strictly below every earlier entry). -/
theorem foldl_closestStep_spec (rho : ℚ) (l : List (ℚ × ℚ)) :
    (∀ z ∈ l, z.2 ≠ 0) → ∀ (b : ℚ × ℚ) (m : ℚ),
      (List.foldl (closestStep (JsNum.fin rho)) (b, JsNum.fin m) l = (b, JsNum.fin m) ∧
          ∀ z ∈ l, m ≤ ratioDiff rho z) ∨
        (∃ i : ℕ, ∃ hi : i < l.length,
          List.foldl (closestStep (JsNum.fin rho)) (b, JsNum.fin m) l =
            (l.get ⟨i, hi⟩, JsNum.fin (ratioDiff rho (l.get ⟨i, hi⟩))) ∧
          ratioDiff rho (l.get ⟨i, hi⟩) < m ∧
          (∀ z ∈ l, ratioDiff rho (l.get ⟨i, hi⟩) ≤ ratioDiff rho z) ∧
          (∀ j : ℕ, ∀ hj : j < l.length, j < i →
            ratioDiff rho (l.get ⟨i, hi⟩) < ratioDiff rho (l.get ⟨j, hj⟩))) := by
  induction l with
  | nil =>
    intro _ b m
    exact Or.inl ⟨rfl, fun z hz => absurd hz (List.not_mem_nil z)⟩
  | cons hd tl ih =>
    intro hl b m
    have hhd : hd.2 ≠ 0 := hl hd (List.mem_cons_self hd tl)
    have htl : ∀ z ∈ tl, z.2 ≠ 0 := fun z hz => hl z (List.mem_cons_of_mem hd hz)
    rw [List.foldl_cons, closestStep_fin_fin rho m b hd hhd]
    by_cases hcmp : ratioDiff rho hd < m
    · rw [if_pos hcmp]
      rcases ih htl hd (ratioDiff rho hd) with ⟨heq, hmin⟩ | ⟨i, hi, heq, hlt, hmin, hstrict⟩
      · refine Or.inr ⟨0, Nat.succ_pos _, by simpa using heq, by simpa using hcmp, ?_, ?_⟩
        · intro z hz
          rcases List.mem_cons.mp hz with rfl | hz'
          · simp
          · simpa using hmin z hz'
        · intro j hj hj0
          exact absurd hj0 (Nat.not_lt_zero j)
      · refine Or.inr ⟨i + 1, Nat.succ_lt_succ hi, by simpa using heq,
          by simpa using lt_trans hlt hcmp, ?_, ?_⟩
        · intro z hz
          rcases List.mem_cons.mp hz with rfl | hz'
          · simpa using le_of_lt hlt
          · simpa using hmin z hz'
        · intro j hj hji
          cases j with
          | zero => simpa using hlt
          | succ k =>
            simpa using hstrict k (Nat.lt_of_succ_lt_succ hj) (Nat.lt_of_succ_lt_succ hji)
    · rw [if_neg hcmp]
      push_neg at hcmp
      rcases ih htl b m with ⟨heq, hmin⟩ | ⟨i, hi, heq, hlt, hmin, hstrict⟩
      · refine Or.inl ⟨heq, ?_⟩
        intro z hz
        rcases List.mem_cons.mp hz with rfl | hz'
        · exact hcmp
        · exact hmin z hz'
      · refine Or.inr ⟨i + 1, Nat.succ_lt_succ hi, by simpa using heq,
          by simpa using hlt, ?_, ?_⟩
        · intro z hz
          rcases List.mem_cons.mp hz with rfl | hz'
          · simpa using le_of_lt (lt_of_lt_of_le hlt hcmp)
          · simpa using hmin z hz'
        · intro j hj hji
          cases j with
          | zero => simpa using lt_of_lt_of_le hlt hcmp
          | succ k =>
            simpa using hstrict k (Nat.lt_of_succ_lt_succ hj) (Nat.lt_of_succ_lt_succ hji)

/-- The full loop with `minDiff = Infinity` over a nonempty table of
nonzero-height entries computes the first entry of least ratio
difference, regardless of the initial `bestMatch` value. -/
theorem foldl_closestStep_argmin (rho : ℚ) (b0 hd : ℚ × ℚ) (tl : List (ℚ × ℚ))
    (hhd : hd.2 ≠ 0) (htl : ∀ z ∈ tl, z.2 ≠ 0) :
    ∃ i : ℕ, ∃ hi : i < (hd :: tl).length,
      (List.foldl (closestStep (JsNum.fin rho)) (b0, JsNum.posInf) (hd :: tl)).1 =
        (hd :: tl).get ⟨i, hi⟩ ∧
      (∀ z ∈ hd :: tl, ratioDiff rho ((hd :: tl).get ⟨i, hi⟩) ≤ ratioDiff rho z) ∧
      (∀ j : ℕ, ∀ hj : j < (hd :: tl).length, j < i →
        ratioDiff rho ((hd :: tl).get ⟨i, hi⟩) <
          ratioDiff rho ((hd :: tl).get ⟨j, hj⟩)) := by
  rw [List.foldl_cons, closestStep_posInf rho b0 hd hhd]
  rcases foldl_closestStep_spec rho tl htl hd (ratioDiff rho hd) with
    ⟨heq, hmin⟩ | ⟨i, hi, heq, hlt, hmin, hstrict⟩
  · refine ⟨0, Nat.succ_pos _, by rw [heq]; simp, ?_, ?_⟩
    · intro z hz
      rcases List.mem_cons.mp hz with rfl | hz'
      · simp
      · simpa using hmin z hz'
    · intro j hj hj0
      exact absurd hj0 (Nat.not_lt_zero j)
  · refine ⟨i + 1, Nat.succ_lt_succ hi, by rw [heq]; simp, ?_, ?_⟩
    · intro z hz
      rcases List.mem_cons.mp hz with rfl | hz'
      · simpa using le_of_lt hlt
      · simpa using hmin z hz'
    · intro j hj hji
      cases j with
      | zero => simpa using hlt
      | succ k =>
        simpa using hstrict k (Nat.lt_of_succ_lt_succ hj) (Nat.lt_of_succ_lt_succ hji)

/-- Claim C1: for positive width and height, `findClosestAllowedSize`
returns the entry of `ALLOWED_DIMENSIONS` minimizing the absolute
difference between the input aspect ratio and the entry's ratio, and
among entries attaining the minimum the first one in table order wins
(its difference is strictly below every earlier entry's). -/
theorem findClosest_minimizes (w h : ℚ) (hw : 0 < w) (hh : 0 < h) :
    ∃ i : ℕ, ∃ hi : i < ALLOWED_DIMENSIONS.length,
      findClosestAllowedSize (JsNum.fin w) (JsNum.fin h) = ALLOWED_DIMENSIONS.get ⟨i, hi⟩ ∧
      (∀ dim ∈ ALLOWED_DIMENSIONS,
        ratioDiff (w / h) (ALLOWED_DIMENSIONS.get ⟨i, hi⟩) ≤ ratioDiff (w / h) dim) ∧
      (∀ j : ℕ, ∀ hj : j < ALLOWED_DIMENSIONS.length, j < i →
        ratioDiff (w / h) (ALLOWED_DIMENSIONS.get ⟨i, hi⟩) <
          ratioDiff (w / h) (ALLOWED_DIMENSIONS.get ⟨j, hj⟩)) := by
  have hdiv : JsNum.div (JsNum.fin w) (JsNum.fin h) = JsNum.fin (w / h) := by
    simp [JsNum.div, hh.ne']
  unfold findClosestAllowedSize selectClosest
  rw [hdiv]
  exact foldl_closestStep_argmin (w / h) ALLOWED_DIMENSIONS.headI (1024, 1024)
    [(1152, 896), (1216, 832), (1344, 768), (1536, 640),
     (640, 1536), (768, 1344), (832, 1216), (896, 1152)]
    (by norm_num)
    (by intro z hz; fin_cases hz <;> norm_num)

/-- Claim C1 witness: instantiation at the 2000×1000 input. -/
theorem findClosest_minimizes_witness :
    ∃ i : ℕ, ∃ hi : i < ALLOWED_DIMENSIONS.length,
      findClosestAllowedSize (JsNum.fin 2000) (JsNum.fin 1000) =
        ALLOWED_DIMENSIONS.get ⟨i, hi⟩ ∧
      (∀ dim ∈ ALLOWED_DIMENSIONS,
        ratioDiff ((2000 : ℚ) / 1000) (ALLOWED_DIMENSIONS.get ⟨i, hi⟩) ≤
          ratioDiff ((2000 : ℚ) / 1000) dim) ∧
      (∀ j : ℕ, ∀ hj : j < ALLOWED_DIMENSIONS.length, j < i →
        ratioDiff ((2000 : ℚ) / 1000) (ALLOWED_DIMENSIONS.get ⟨i, hi⟩) <
          ratioDiff ((2000 : ℚ) / 1000) (ALLOWED_DIMENSIONS.get ⟨j, hj⟩)) :=
  findClosest_minimizes 2000 1000 (by norm_num) (by norm_num)

/-- The loop's `bestMatch` is always either the initial value or an
element of the traversed list, for every aspect-ratio value including
NaN and the infinities. -/
theorem foldl_closestStep_mem (rho : JsNum) (l : List (ℚ × ℚ)) :
    ∀ (b : ℚ × ℚ) (m : JsNum),
      (List.foldl (closestStep rho) (b, m) l).1 = b ∨
        (List.foldl (closestStep rho) (b, m) l).1 ∈ l := by
  induction l with
  | nil =>
    intro b m
    exact Or.inl rfl
  | cons hd tl ih =>
    intro b m
    rw [List.foldl_cons]
    have hstep : (closestStep rho (b, m) hd).1 = hd ∨ (closestStep rho (b, m) hd).1 = b := by
      simp only [closestStep]
      split
      · exact Or.inl rfl
      · exact Or.inr rfl
    have hrec := ih (closestStep rho (b, m) hd).1 (closestStep rho (b, m) hd).2
    rw [Prod.mk.eta] at hrec
    rcases hrec with h1 | h1
    · rcases hstep with h2 | h2
      · exact Or.inr (by rw [h1, h2]; exact List.mem_cons_self hd tl)
      · exact Or.inl (by rw [h1, h2])
    · exact Or.inr (List.mem_cons_of_mem hd h1)

/-- When the computed aspect ratio is NaN or infinite, every comparison
`diff < minDiff` in the loop is false (the difference is NaN or
Infinity, and `minDiff` starts at Infinity), so no iteration updates the
accumulator. -/
theorem closestStep_nonfin (rho : JsNum) (hrho : rho.isNanOrInf = true)
    (acc : (ℚ × ℚ) × JsNum) (z : ℚ × ℚ) :
    closestStep rho acc z = acc := by
  obtain ⟨b, m⟩ := acc
  cases rho with
  | fin q => simp [JsNum.isNanOrInf] at hrho
  | posInf =>
    rcases hdv : JsNum.div (JsNum.fin z.1) (JsNum.fin z.2) with q | _ | _ | _ <;>
      cases m <;>
        simp [closestStep, hdv, JsNum.sub, JsNum.abs, JsNum.lt]
  | negInf =>
    rcases hdv : JsNum.div (JsNum.fin z.1) (JsNum.fin z.2) with q | _ | _ | _ <;>
      cases m <;>
        simp [closestStep, hdv, JsNum.sub, JsNum.abs, JsNum.lt]
  | nan =>
    cases m <;> simp [closestStep, JsNum.sub, JsNum.abs, JsNum.lt]

/-- With a NaN or infinite aspect ratio the whole loop leaves the
accumulator untouched. -/
theorem foldl_closestStep_nonfin (rho : JsNum) (hrho : rho.isNanOrInf = true)
    (l : List (ℚ × ℚ)) :
    ∀ acc : (ℚ × ℚ) × JsNum, List.foldl (closestStep rho) acc l = acc := by
  induction l with
  | nil => intro acc; rfl
  | cons hd tl ih =>
    intro acc
    rw [List.foldl_cons, closestStep_nonfin rho hrho acc hd]
    exact ih acc

/-- Claim C10: `findClosestAllowedSize` is total and always returns an
element of ALLOWED_DIMENSIONS, for every JavaScript-number input; and in
the degenerate case where the computed aspect ratio is NaN or infinite
(zero height, or non-finite operands) no difference compares strictly
below the running minimum and the table's first entry 1024×1024 is
returned. -/
theorem findClosest_total_and_degenerate (w h : JsNum) :
    findClosestAllowedSize w h ∈ ALLOWED_DIMENSIONS ∧
    ((JsNum.div w h).isNanOrInf = true → findClosestAllowedSize w h = (1024, 1024)) := by
  constructor
  · have hmem := foldl_closestStep_mem (JsNum.div w h) ALLOWED_DIMENSIONS
      ALLOWED_DIMENSIONS.headI JsNum.posInf
    unfold findClosestAllowedSize selectClosest
    rcases hmem with h1 | h1
    · rw [h1]
      simp [ALLOWED_DIMENSIONS]
    · exact h1
  · intro hdeg
    unfold findClosestAllowedSize selectClosest
    rw [foldl_closestStep_nonfin (JsNum.div w h) hdeg ALLOWED_DIMENSIONS]
    rfl

/-- Claim C10 witness: a NaN width (ratio NaN) and a zero height (ratio
Infinity) both return the first table entry. -/
theorem findClosest_total_and_degenerate_witness :
    findClosestAllowedSize JsNum.nan (JsNum.fin 1) = (1024, 1024) ∧
    findClosestAllowedSize (JsNum.fin 1) (JsNum.fin 0) = (1024, 1024) :=
  ⟨(findClosest_total_and_degenerate JsNum.nan (JsNum.fin 1)).2
      (by simp [JsNum.div, JsNum.isNanOrInf]),
   (findClosest_total_and_degenerate (JsNum.fin 1) (JsNum.fin 0)).2
      (by norm_num [JsNum.div, JsNum.isNanOrInf])⟩
